/-
  Verification of the Seidar reverse proxy against its specification.

  Shallow embedding of the request-forwarding core:
  backend health state machine and connection guards
  (src/load_balancer/backend.rs), backend pools and round-robin
  selection (src/load_balancer/pool.rs, round_robin.rs), route
  compilation and matching (src/routing/router.rs, matcher.rs),
  retry budget and retryability (src/resilience/retries.rs), the
  proxy attempt loop (src/http/server.rs), the access-control
  middleware (src/security/access_control.rs) and the long-lived
  connection tracker (src/security/qos.rs).

  Concurrency note: the Rust code uses atomics; every claim treated
  here is about the sequential behaviour of a single call (or a
  sequence of calls), so atomic loads/stores and CAS loops are
  embedded as plain state-passing functions.
-/
import Mathlib

namespace Seidar

/-! ## Backend (src/load_balancer/backend.rs) -/

/-- Health state of a backend (0=Unknown, 1=Healthy, 2=Unhealthy). -/
inductive HealthState where
  | Unknown
  | Healthy
  | Unhealthy
deriving DecidableEq, Repr

/-- A single backend server.  `addr` stands for the socket address (kept
abstract as a string tag); `activeConnections`, `state` and the two
counters embed the atomics of `struct Backend`. -/
structure Backend where
  addr : String
  maxConnections : Nat
  activeConnections : Nat
  state : HealthState
  consecutiveFailures : Nat
  consecutiveSuccesses : Nat
deriving DecidableEq, Repr

/-- `Backend::new`: zero counters, `Unknown` state. -/
def Backend.new (addr : String) (maxConnections : Nat) : Backend :=
  { addr := addr
    maxConnections := maxConnections
    activeConnections := 0
    state := HealthState.Unknown
    consecutiveFailures := 0
    consecutiveSuccesses := 0 }

/-- `Backend::is_healthy`: true iff state is not `Unhealthy`
(`Unknown` counts as healthy). -/
def Backend.isHealthy (b : Backend) : Bool :=
  b.state ≠ HealthState.Unhealthy

/-- `Backend::try_create_guard`: the CAS loop succeeds exactly when the
loaded `active_connections` is below `max_connections`, incrementing it by
one; sequentially this is a single compare and increment.  The returned
backend is the guard's view of the backend after acquisition. -/
def Backend.tryCreateGuard (b : Backend) : Option Backend :=
  if b.activeConnections ≥ b.maxConnections then none
  else some { b with activeConnections := b.activeConnections + 1 }

/-- `Backend::dec_connections`, run by `BackendConnectionGuard::drop`. -/
def Backend.decConnections (b : Backend) : Backend :=
  { b with activeConnections := b.activeConnections - 1 }

/-- `Backend::mark_success`: store 0 to `consecutive_failures`; if the
state is `Healthy` return at once; otherwise `fetch_add` the success
counter and move to `Healthy` when it reaches the threshold. -/
def Backend.markSuccess (b : Backend) (healthyThreshold : Nat) : Backend :=
  let b := { b with consecutiveFailures := 0 }
  if b.state = HealthState.Healthy then b
  else
    let successes := b.consecutiveSuccesses + 1
    let b := { b with consecutiveSuccesses := successes }
    if successes ≥ healthyThreshold then { b with state := HealthState.Healthy }
    else b

/-- `Backend::mark_failure`: store 0 to `consecutive_successes`; if the
state is `Unhealthy` return at once; otherwise `fetch_add` the failure
counter and move to `Unhealthy` when it reaches the threshold. -/
def Backend.markFailure (b : Backend) (unhealthyThreshold : Nat) : Backend :=
  let b := { b with consecutiveSuccesses := 0 }
  if b.state = HealthState.Unhealthy then b
  else
    let failures := b.consecutiveFailures + 1
    let b := { b with consecutiveFailures := failures }
    if failures ≥ unhealthyThreshold then { b with state := HealthState.Unhealthy }
    else b

/-! ## Round robin and pool (src/load_balancer/round_robin.rs, pool.rs) -/

/-- The scan of `RoundRobin::next_server`: starting at offset `i` with
`remaining` positions left, return the index of the first backend whose
`is_healthy()` holds at position `(counter + i) % len`. -/
def rrScan (backends : List Backend) (counter : Nat) : Nat → Nat → Option Nat
  | _, 0 => none
  | i, remaining + 1 =>
    let idx := (counter + i) % backends.length
    match backends[idx]? with
    | some b =>
      if b.isHealthy then some idx else rrScan backends counter (i + 1) remaining
    | none => rrScan backends counter (i + 1) remaining

/-- `RoundRobin::next_server`: if the slice is empty, `None`; otherwise
scan `len` positions from `counter % len` (the pre-`fetch_add` counter
value), returning the first backend whose `is_healthy()` holds.  The
index of the chosen backend is returned; the counter increment is
modelled at the `get` call site. -/
def nextServer (backends : List Backend) (counter : Nat) : Option Nat :=
  if backends.length = 0 then none
  else rrScan backends counter 0 backends.length

/-- One load-balanced group of `BackendManager`: the backend vector and
the round-robin counter (`Phase 3` always installs `RoundRobin`). -/
structure Group where
  backends : List Backend
  rrCounter : Nat
deriving DecidableEq, Repr

/-- The `BackendManager`: groups keyed by name (association list in place
of the `HashMap`). -/
structure BackendManager where
  groups : List (String × Group)
deriving DecidableEq, Repr

/-- Result of a successful `BackendManager::get`: the selected index,
the backend as loaded at selection time (`pre`), and the guard's view of
it after the CAS increment (`guard`). -/
structure GetResult where
  idx : Nat
  pre : Backend
  guard : Backend
deriving DecidableEq, Repr

/-- Update the named group in a manager. -/
def BackendManager.setGroup (m : BackendManager) (name : String) (g : Group) :
    BackendManager :=
  { groups := m.groups.map fun p => if p.1 = name then (p.1, g) else p }

/-- `BackendManager::get`: look the group up; run the load balancer
(`next_server`, whose `fetch_add` consumes one counter tick whenever the
backend list is non-empty); on a hit, `try_create_guard` on that single
backend — if the guard fails the whole call returns `None` (there is no
further scanning in `pool.rs`). -/
def BackendManager.get (m : BackendManager) (groupName : String) :
    Option GetResult × BackendManager :=
  match m.groups.lookup groupName with
  | none => (none, m)
  | some g =>
    if g.backends.length = 0 then (none, m)
    else
      match nextServer g.backends g.rrCounter with
      | none => (none, m.setGroup groupName { g with rrCounter := g.rrCounter + 1 })
      | some idx =>
        match g.backends[idx]? with
        | none => (none, m.setGroup groupName { g with rrCounter := g.rrCounter + 1 })
        | some b =>
          match b.tryCreateGuard with
          | none => (none, m.setGroup groupName { g with rrCounter := g.rrCounter + 1 })
          | some b' =>
            (some { idx := idx, pre := b, guard := b' },
             m.setGroup groupName
               { backends := g.backends.set idx b', rrCounter := g.rrCounter + 1 })

/-- Release a connection guard of the backend at `idx` of group
`groupName` (the `Drop` of `BackendConnectionGuard`). -/
def BackendManager.releaseGuard (m : BackendManager) (groupName : String)
    (idx : Nat) : BackendManager :=
  match m.groups.lookup groupName with
  | none => m
  | some g =>
    match g.backends[idx]? with
    | none => m
    | some b =>
      m.setGroup groupName { g with backends := g.backends.set idx b.decConnections }

/-- Apply a health-marking function to the backend at `idx` of group
`groupName` (the `mark_success`/`mark_failure` call through the guard). -/
def BackendManager.applyMark (m : BackendManager) (groupName : String)
    (idx : Nat) (f : Backend → Backend) : BackendManager :=
  match m.groups.lookup groupName with
  | none => m
  | some g =>
    match g.backends[idx]? with
    | none => m
    | some b =>
      m.setGroup groupName { g with backends := g.backends.set idx (f b) }

/-! ## Routing (src/routing/matcher.rs, router.rs) -/

/-- Lowercasing a string (`str::to_lowercase`), character by character.
(`String.toLower` itself is opaque to the kernel, so the embedding maps
over the character data directly.) -/
def strLower (s : String) : String := ⟨s.data.map Char.toLower⟩

/-- `str::starts_with`, on the character data. -/
def strStartsWith (s pre : String) : Bool := pre.data.isPrefixOf s.data

/-- The part of an inbound request that routing inspects: the raw `Host`
header (absent when missing or not valid ASCII) and the URI path. -/
structure HttpRequest where
  hostHeader : Option String
  path : String
deriving DecidableEq, Repr

/-- The matcher tree of `matcher.rs`: `HostMatcher` (expected host is
lowercased at construction), `PathPrefixMatcher`, `AndMatcher`. -/
inductive Matcher where
  | hostM (expectedHost : String)
  | pathM (pre : String)
  | andM (ms : List Matcher)

/-- `Matcher::matches`: host compares the lowercased `Host` header with
the expected host (false when the header is absent); path tests
`starts_with`; `AndMatcher` requires all members to match. -/
def Matcher.matches : Matcher → HttpRequest → Bool
  | .hostM e, req =>
    match req.hostHeader with
    | some h => strLower h = e
    | none => false
  | .pathM p, req => strStartsWith req.path p
  | .andM ms, req => allMatch ms req
where
  /-- `ms.iter().all(|m| m.matches(req))` -/
  allMatch : List Matcher → HttpRequest → Bool
    | [], _ => true
    | m :: ms, req => m.matches req && allMatch ms req

/-- A compiled route (`struct Route` of router.rs). -/
structure Route where
  id : String
  matcher : Matcher
  backendGroup : String
  priority : Nat

/-- A route's configuration (`RouteConfig`). -/
structure RouteConfig where
  name : String
  host : Option String
  pathPrefix : Option String
  backendGroup : String
  priority : Nat
deriving DecidableEq, Repr

/-- The matcher chain built by `Router::from_config`: host matcher (if a
host is configured) then path matcher (if a prefix is configured); a
single entry is used bare, an empty chain becomes the match-everything
prefix `/`, two entries are wrapped in `AndMatcher`. -/
def buildMatcher (config : RouteConfig) : Matcher :=
  let matchers : List Matcher :=
    (match config.host with
     | some h => [Matcher.hostM (strLower h)]
     | none => []) ++
    (match config.pathPrefix with
     | some p => [Matcher.pathM p]
     | none => [])
  match matchers with
  | [m] => m
  | [] => Matcher.pathM "/"
  | ms => Matcher.andM ms

/-- Append a route to the bucket of `key`, creating the bucket if it is
absent (`routes_by_host.entry(host_key).or_default().push(route)`). -/
def bucketAdd : List (String × List Route) → String → Route →
    List (String × List Route)
  | [], key, r => [(key, [r])]
  | (k, rs) :: rest, key, r =>
    if k = key then (k, rs ++ [r]) :: rest
    else (k, rs) :: bucketAdd rest key r

/-- Insert a route into a descending-priority-sorted list, after every
route of priority ≥ its own (the stable placement of Rust's
`sort_by(|a, b| b.priority.cmp(&a.priority))`). -/
def insertByPriority (r : Route) : List Route → List Route
  | [] => [r]
  | x :: xs =>
    if r.priority ≤ x.priority then x :: insertByPriority r xs
    else r :: x :: xs

/-- Stable sort by descending priority. -/
def sortByPriorityDesc (rs : List Route) : List Route :=
  rs.foldl (fun acc r => insertByPriority r acc) []

/-- The compiled router: buckets keyed by lowercased host, the empty key
being the wildcard bucket. -/
structure Router where
  routesByHost : List (String × List Route)

/-- `Router::from_config`: group routes by lowercased configured host
(absent host = `""`), compile the matcher chain, then sort every bucket
by descending priority. -/
def Router.fromConfig (configs : List RouteConfig) : Router :=
  let buckets := configs.foldl
    (fun acc config =>
      let hostKey := (config.host.map strLower).getD ""
      bucketAdd acc hostKey
        { id := config.name
          matcher := buildMatcher config
          backendGroup := config.backendGroup
          priority := config.priority })
    []
  { routesByHost := buckets.map fun p => (p.1, sortByPriorityDesc p.2) }

/-- `Router::match_request`: if a `Host` header is present, look its
lowercased value up (the code deliberately does **not** strip a port
suffix) and return the first route of the bucket whose matcher accepts;
otherwise, and when no host-specific route matched, fall back to the
wildcard bucket `""`; `None` when no route accepts. -/
def Router.matchRequest (r : Router) (req : HttpRequest) : Option Route :=
  let hostAttempt :=
    match req.hostHeader with
    | some h =>
      match r.routesByHost.lookup (strLower h) with
      | some routes => routes.find? fun route => route.matcher.matches req
      | none => none
    | none => none
  match hostAttempt with
  | some route => some route
  | none =>
    match r.routesByHost.lookup "" with
    | some routes => routes.find? fun route => route.matcher.matches req
    | none => none

/-- Modelled from the spec: "stripping any port suffix" — the host text
before the first `:`. -/
def stripPort (host : String) : String :=
  ⟨host.data.takeWhile (fun ch => ch ≠ ':')⟩

/-- Modelled from the spec: the matching procedure exactly as the claim
words it, including the port-stripping step on the lookup host
("derive host by lowercasing the inbound Host header and stripping any
port suffix; look up that bucket, iterate its priority-ordered routes,
return the first whose matcher accepts; if no host-specific route
matches, repeat against the wildcard bucket"). -/
def Router.matchRequestSpecStrip (r : Router) (req : HttpRequest) : Option Route :=
  let hostAttempt :=
    match req.hostHeader with
    | some h =>
      match r.routesByHost.lookup (stripPort (strLower h)) with
      | some routes => routes.find? fun route => route.matcher.matches req
      | none => none
    | none => none
  match hostAttempt with
  | some route => some route
  | none =>
    match r.routesByHost.lookup "" with
    | some routes => routes.find? fun route => route.matcher.matches req
    | none => none

/-- The amended lookup procedure: as the spec words it but with the
lookup host derived by lowercasing only (no port stripping). -/
def Router.matchRequestSpecNoStrip (r : Router) (req : HttpRequest) : Option Route :=
  let hostAttempt :=
    match req.hostHeader with
    | some h =>
      match r.routesByHost.lookup (strLower h) with
      | some routes => routes.find? fun route => route.matcher.matches req
      | none => none
    | none => none
  match hostAttempt with
  | some route => some route
  | none =>
    match r.routesByHost.lookup "" with
    | some routes => routes.find? fun route => route.matcher.matches req
    | none => none

/-- Executable check that a bucket is in descending-priority order. -/
def routesSortedDesc : List Route → Bool
  | [] => true
  | [_] => true
  | a :: b :: rest => b.priority ≤ a.priority && routesSortedDesc (b :: rest)

/-- Executable check that every bucket of a router is sorted by
descending priority. -/
def Router.bucketsSortedDesc (r : Router) : Bool :=
  r.routesByHost.all fun p => routesSortedDesc p.2

/-! ## Retry budget and retryability (src/resilience/retries.rs) -/

/-- The retry budget: two counters, a ratio and a floor.  The `f32`
`buffer_ratio` is embedded as an exact rational. -/
structure RetryBudget where
  totalRequests : Nat
  totalRetries : Nat
  bufferRatio : ℚ
  minRequests : Nat
deriving DecidableEq, Repr

/-- `RetryBudget::new`. -/
def RetryBudget.new (bufferRatio : ℚ) (minRequests : Nat) : RetryBudget :=
  { totalRequests := 0, totalRetries := 0
    bufferRatio := bufferRatio, minRequests := minRequests }

/-- `RetryBudget::record_request`. -/
def RetryBudget.recordRequest (rb : RetryBudget) : RetryBudget :=
  { rb with totalRequests := rb.totalRequests + 1 }

/-- The comparison `retries as f32 / total as f32 < buffer_ratio`.
When `total = 0` the `f32` quotient is `NaN` (`0.0/0.0`) or `+inf`,
and either compares false against a finite ratio, hence the guard;
for `total ≠ 0` the quotient is embedded as the exact rational. -/
def ratioLtBuffer (retries total : Nat) (ratio : ℚ) : Bool :=
  total ≠ 0 && decide ((retries : ℚ) / (total : ℚ) < ratio)

/-- `RetryBudget::can_retry`: under the floor, grant and bump the retry
counter; otherwise grant (and bump) iff the retry ratio is below
`buffer_ratio`; on refusal nothing changes. -/
def RetryBudget.canRetry (rb : RetryBudget) : Bool × RetryBudget :=
  if rb.totalRequests < rb.minRequests then
    (true, { rb with totalRetries := rb.totalRetries + 1 })
  else if ratioLtBuffer rb.totalRetries rb.totalRequests rb.bufferRatio then
    (true, { rb with totalRetries := rb.totalRetries + 1 })
  else
    (false, rb)

/-- HTTP methods relevant to retry classification. -/
inductive Method where
  | GET | HEAD | POST | PUT | DELETE | OPTIONS | TRACE | PATCH | CONNECT
deriving DecidableEq, Repr

/-- `http::Method::is_idempotent` of the external `http` crate: `PUT`,
`DELETE` and the safe methods (`GET`, `HEAD`, `OPTIONS`, `TRACE`). -/
def Method.isIdempotent : Method → Bool
  | .GET | .HEAD | .OPTIONS | .TRACE | .PUT | .DELETE => true
  | _ => false

/-- `is_retryable(method, status, error)`: the outer guard rejects a
method that is neither idempotent nor `POST` when it is also not one of
`GET`/`HEAD`/`PUT`/`DELETE`; past the guard, a transport error is
retryable, and a response is retryable iff its status is 502, 503 or
504. -/
def isRetryable (method : Method) (status : Option Nat) (error : Bool) : Bool :=
  if (!method.isIdempotent && method ≠ Method.POST)
      && (method ≠ Method.GET && method ≠ Method.HEAD
          && method ≠ Method.PUT && method ≠ Method.DELETE) then
    false
  else if error then
    true
  else
    match status with
    | some s => s = 504 || s = 503 || s = 502
    | none => false

/-! ## Long-lived connection tracker (src/security/qos.rs) -/

/-- The user address of the `alloy` crate, kept abstract as a number. -/
abbrev Address := Nat

/-- The per-tier connection limits of `QosConfig`. -/
structure QosConfig where
  tier1MaxConns : Nat
  tier2MaxConns : Nat
  tier3MaxConns : Nat
deriving DecidableEq, Repr

/-- The tier match of `ConnectionTracker::try_increment`: tiers 1-3 use
their configured limit, anything else defaults to tier 1's. -/
def QosConfig.tierLimit (cfg : QosConfig) (tierId : Nat) : Nat :=
  match tierId with
  | 1 => cfg.tier1MaxConns
  | 2 => cfg.tier2MaxConns
  | 3 => cfg.tier3MaxConns
  | _ => cfg.tier1MaxConns

/-- The tracker's map, address → count.  Counts are embedded as
integers so that absence of underflow is a statement, not a typing
artifact. -/
structure ConnectionTracker where
  counts : List (Address × Int)
  config : QosConfig
deriving DecidableEq, Repr

/-- `ConnectionTracker::new`. -/
def ConnectionTracker.new (config : QosConfig) : ConnectionTracker :=
  { counts := [], config := config }

/-- Store `v` at `addr` in an association list (the entry is known to
exist). -/
def setCount : List (Address × Int) → Address → Int → List (Address × Int)
  | [], _, _ => []
  | (a, c) :: rest, addr, v =>
    if a = addr then (a, v) :: rest else (a, c) :: setCount rest addr v

/-- `ConnectionTracker::try_increment`: `entry(address).or_insert(0)`
materialises a zero entry, then the count is incremented iff it is
below the tier's limit. -/
def ConnectionTracker.tryIncrement (t : ConnectionTracker) (addr : Address)
    (tierId : Nat) : Bool × ConnectionTracker :=
  let limit : Int := (t.config.tierLimit tierId : Nat)
  let counts :=
    match t.counts.lookup addr with
    | some _ => t.counts
    | none => t.counts ++ [(addr, 0)]
  let current := (counts.lookup addr).getD 0
  if current < limit then
    (true, { t with counts := setCount counts addr (current + 1) })
  else
    (false, { t with counts := counts })

/-- `ConnectionTracker::decrement`: subtract one iff the entry exists
and is positive; otherwise leave the map untouched. -/
def ConnectionTracker.decrement (t : ConnectionTracker) (addr : Address) :
    ConnectionTracker :=
  match t.counts.lookup addr with
  | none => t
  | some c =>
    if c > 0 then { t with counts := setCount t.counts addr (c - 1) } else t

/-- A call against the tracker. -/
inductive QosOp where
  | inc (addr : Address) (tierId : Nat)
  | dec (addr : Address)
deriving DecidableEq, Repr

/-- Run a sequence of tracker calls (the result of `try_increment` is
discarded; only the state evolution matters). -/
def ConnectionTracker.run (t : ConnectionTracker) : List QosOp → ConnectionTracker
  | [] => t
  | QosOp.inc addr tierId :: ops => ((t.tryIncrement addr tierId).2).run ops
  | QosOp.dec addr :: ops => (t.decrement addr).run ops

/-! ## Access control middleware (src/security/access_control.rs) -/

/-- `SubscriptionInfo` of payments/cache.rs. -/
structure SubscriptionInfo where
  tierId : Nat
  expiry : Nat
deriving DecidableEq, Repr

/-- `SubscriptionInfo::is_active_with_grace`: `expiry + grace > now`. -/
def SubscriptionInfo.isActiveWithGrace (s : SubscriptionInfo)
    (graceSecs now : Nat) : Bool :=
  s.expiry + graceSecs > now

/-- `UserContext` attached to authenticated requests. -/
structure UserContext where
  address : Address
  tierId : Nat
deriving DecidableEq, Repr

/-- The middleware's verdict: pass the request on (with a user context
exactly when payments are enabled), or reject with a status code. -/
inductive AcOutcome where
  | pass (ctx : Option UserContext)
  | reject (status : Nat)
deriving DecidableEq, Repr

/-- `access_control_middleware`.  `parse` stands for the external
`alloy` address parser (`user_address.parse::<Address>()`); `cache`
for `SubscriptionCache::get_subscription`; `now` for the wall clock
read inside `is_active_with_grace`.  Disabled payments pass everything
through; a missing header is 401 (`UNAUTHORIZED`); a parse failure is
400 (`BAD_REQUEST`); an absent or expired subscription is 403
(`FORBIDDEN`); otherwise the request passes with a `UserContext`. -/
def accessControlMiddleware (enabled : Bool) (header : Option String)
    (parse : String → Option Address)
    (cache : Address → Option SubscriptionInfo)
    (gracePeriodSecs now : Nat) : AcOutcome :=
  if !enabled then AcOutcome.pass none
  else
    match header with
    | none => AcOutcome.reject 401
    | some v =>
      match parse v with
      | none => AcOutcome.reject 400
      | some addr =>
        match cache addr with
        | some sub =>
          if sub.isActiveWithGrace gracePeriodSecs now then
            AcOutcome.pass (some { address := addr, tierId := sub.tierId })
          else
            AcOutcome.reject 403
        | none => AcOutcome.reject 403

/-! ## The forwarding engine's attempt loop (src/http/server.rs, proxy_handler) -/

/-- The health-check thresholds of the configuration snapshot. -/
structure HealthCfg where
  healthyThreshold : Nat
  unhealthyThreshold : Nat
deriving DecidableEq, Repr

/-- The retry configuration fields the handler reads (the backoff delays
only feed `tokio::time::sleep` and carry no state). -/
structure RetriesCfg where
  enabled : Bool
  maxAttempts : Nat
deriving DecidableEq, Repr

/-- What one `wrapper.client.request(req).await` produced: a transport
error, or a response with its status and whether its content type is
`text/event-stream`. -/
inductive UpstreamOutcome where
  | transportError
  | response (status : Nat) (isSse : Bool)
deriving DecidableEq, Repr

/-- A health-marking call observed during the loop: at which attempt it
happened and whether it was `mark_failure` (`true`) or `mark_success`. -/
structure MarkEvent where
  attempt : Nat
  isFailure : Bool
deriving DecidableEq, Repr

/-- A backend selection observed during the loop: the attempt, the
backend as selected and its guard view. -/
structure SelEvent where
  attempt : Nat
  pre : Backend
  guard : Backend
deriving DecidableEq, Repr

/-- The handler's client-visible verdict. -/
inductive ProxyOutcome where
  /-- `match_request` returned `None`: 404 `NOT_FOUND`. -/
  | routeMiss
  /-- `backends.get` returned `None`: 503 `SERVICE_UNAVAILABLE`. -/
  | noBackend
  /-- the SSE long-lived quota rejected the response: 429 `TOO_MANY_REQUESTS`. -/
  | sseLimitReached
  /-- transport error with no retry left: 502 `BAD_GATEWAY`. -/
  | upstreamFailed
  /-- the upstream response passed through with its own status. -/
  | upstream (status : Nat)
deriving DecidableEq, Repr

/-- The status code the proxy writes for each verdict (pass-through
responses keep the upstream status). -/
def ProxyOutcome.statusCode : ProxyOutcome → Nat
  | .routeMiss => 404
  | .noBackend => 503
  | .sseLimitReached => 429
  | .upstreamFailed => 502
  | .upstream s => s

/-- The mutable state the handler threads: the backend pools, the retry
budget and the long-lived connection tracker. -/
structure LoopState where
  manager : BackendManager
  budget : RetryBudget
  tracker : ConnectionTracker
deriving Repr

/-- The result of a handler run: the verdict, the final state, the value
of the `attempts` counter, and the observed health-marking and selection
events (ghost instrumentation; the code performs the same calls without
recording them). -/
structure RunResult where
  outcome : ProxyOutcome
  state : LoopState
  attemptsMade : Nat
  marks : List MarkEvent
  selections : List SelEvent
deriving Repr

/-- `is_server_error()` of the `http` crate: status in 500..=599. -/
def isServerError (status : Nat) : Bool :=
  500 ≤ status && status ≤ 599

/-- The health classification of a pass-through response
(server.rs lines 562-573): a server error that is 502, 503 or 504 marks
failure, anything else marks success. -/
def responseMarksFailure (status : Nat) : Bool :=
  if isServerError status then
    status = 502 || status = 503 || status = 504
  else
    false

/-- One execution of `loop { ... }` in `proxy_handler`, fuelled.  Each
iteration increments `attempts`, selects a backend (`None` → 503),
sends (the `outcomes` oracle maps the attempt number to what the shared
client produced), then follows the retry / SSE-tracking / health-marking
order of the code.  The guard drops (releasing the connection slot) on
every path out of the iteration.  Fuel is an artifact of the embedding:
`max maxAttempts 1` iterations always suffice, so the fuel-exhausted
default is unreachable from `proxyHandler`. -/
def attemptLoop (hc : HealthCfg) (method : Method) (maxAttempts : Nat)
    (outcomes : Nat → UpstreamOutcome) (groupName : String)
    (userCtx : Option UserContext) :
    Nat → Nat → LoopState → List MarkEvent → List SelEvent → RunResult
  | 0, attempts, st, marks, sels =>
    { outcome := ProxyOutcome.noBackend, state := st, attemptsMade := attempts
      marks := marks, selections := sels }
  | fuel + 1, attempts, st, marks, sels =>
    let attempts := attempts + 1
    match st.manager.get groupName with
    | (none, m') =>
      { outcome := ProxyOutcome.noBackend
        state := { st with manager := m' }
        attemptsMade := attempts, marks := marks, selections := sels }
    | (some res, m') =>
      let st := { st with manager := m' }
      let sels := sels ++ [{ attempt := attempts, pre := res.pre, guard := res.guard }]
      -- the final-response paths, shared below: mark health through the
      -- guard, then drop the guard
      let finalize := fun (outcome : ProxyOutcome) (failure : Bool)
          (budget : RetryBudget) (tracker : ConnectionTracker) =>
        let mark := fun (b : Backend) =>
          if failure then b.markFailure hc.unhealthyThreshold
          else b.markSuccess hc.healthyThreshold
        let manager := (st.manager.applyMark groupName res.idx mark).releaseGuard
          groupName res.idx
        { outcome := outcome
          state := { manager := manager, budget := budget, tracker := tracker }
          attemptsMade := attempts
          marks := marks ++ [{ attempt := attempts, isFailure := failure }]
          selections := sels : RunResult }
      match outcomes attempts with
      | UpstreamOutcome.transportError =>
        if attempts < maxAttempts && isRetryable method none true then
          let (ok, budget) := st.budget.canRetry
          if ok then
            attemptLoop hc method maxAttempts outcomes groupName userCtx fuel attempts
              { st with manager := st.manager.releaseGuard groupName res.idx
                        budget := budget }
              marks sels
          else
            finalize ProxyOutcome.upstreamFailed true budget st.tracker
        else
          finalize ProxyOutcome.upstreamFailed true st.budget st.tracker
      | UpstreamOutcome.response status isSse =>
        -- past the retry check, the SSE quota gate runs before health marking
        let finalizeResponse := fun (budget : RetryBudget) =>
          if isSse then
            match userCtx with
            | some ctx =>
              let (ok, tracker) := st.tracker.tryIncrement ctx.address ctx.tierId
              if ok then
                finalize (ProxyOutcome.upstream status) (responseMarksFailure status)
                  budget tracker
              else
                { outcome := ProxyOutcome.sseLimitReached
                  state := { manager := st.manager.releaseGuard groupName res.idx
                             budget := budget, tracker := tracker }
                  attemptsMade := attempts, marks := marks, selections := sels : RunResult }
            | none =>
              finalize (ProxyOutcome.upstream status) (responseMarksFailure status)
                budget st.tracker
          else
            finalize (ProxyOutcome.upstream status) (responseMarksFailure status)
              budget st.tracker
        if attempts < maxAttempts && isRetryable method (some status) false then
          let (ok, budget) := st.budget.canRetry
          if ok && !isSse then
            attemptLoop hc method maxAttempts outcomes groupName userCtx fuel attempts
              { st with manager := st.manager.releaseGuard groupName res.idx
                        budget := budget }
              marks sels
          else
            finalizeResponse budget
        else
          finalizeResponse st.budget

/-- `max_attempts` (server.rs line 462): the configured count when
retries are enabled and the body was buffered or the method is `GET` or
`HEAD`; otherwise a single attempt. -/
def computeMaxAttempts (rc : RetriesCfg) (method : Method)
    (bodyBuffered : Bool) : Nat :=
  if rc.enabled && (bodyBuffered || method = Method.GET || method = Method.HEAD)
  then rc.maxAttempts
  else 1

/-- `proxy_handler` (the non-WebSocket path): route the request (miss →
404), buffer the body when retries are enabled and the method is
idempotent (`bodyBufferOk` is the oracle for `to_bytes` succeeding
within the 1 MiB cap), record the request in the budget, compute
`max_attempts`, then run the attempt loop. -/
def proxyHandler (rc : RetriesCfg) (hc : HealthCfg) (router : Router)
    (st : LoopState) (req : HttpRequest) (method : Method)
    (bodyBufferOk : Bool) (outcomes : Nat → UpstreamOutcome)
    (userCtx : Option UserContext) : RunResult :=
  match router.matchRequest req with
  | none =>
    { outcome := ProxyOutcome.routeMiss, state := st, attemptsMade := 0
      marks := [], selections := [] }
  | some route =>
    let bodyBuffered := rc.enabled && method.isIdempotent && bodyBufferOk
    let st := { st with budget := st.budget.recordRequest }
    let maxAttempts := computeMaxAttempts rc method bodyBuffered
    attemptLoop hc method maxAttempts outcomes route.backendGroup userCtx
      (max maxAttempts 1) 0 st [] []

/-! ## Spec-side characterisations and concrete instances -/

/-- Whether the backend at scan position `n` (taken `mod` the list
length) is healthy. -/
def healthyIdx (bs : List Backend) (n : Nat) : Bool :=
  match bs[n % bs.length]? with
  | some b => b.isHealthy
  | none => false

/-- The spec's wording of round-robin selection: scan up to `N` offsets
from the counter, return the position of the first healthy backend. -/
def nextServerFirstHealthy (bs : List Backend) (c : Nat) : Option Nat :=
  if bs.length = 0 then none
  else ((List.range bs.length).find? fun i => healthyIdx bs (c + i)).map
    fun i => (c + i) % bs.length

/-- The per-selection property of C1: a selected backend is healthy and
its guard view respects the connection bound. -/
def selPred (s : SelEvent) : Bool :=
  s.pre.isHealthy && decide (s.guard.activeConnections ≤ s.guard.maxConnections)

/-- All counts of a tracker are non-negative. -/
def nonnegCounts (t : ConnectionTracker) : Prop :=
  ∀ (a : Address) (c : Int), t.counts.lookup a = some c → 0 ≤ c

/-- A manager with one fresh backend of capacity 2 in group `g`. -/
def wMgr : BackendManager :=
  { groups := [("g", { backends := [Backend.new "b1" 2], rrCounter := 0 })] }

/-- A healthy but saturated backend (the scan origin of the C7
counterexample). -/
def satB1 : Backend :=
  { addr := "b1", maxConnections := 1, activeConnections := 1
    state := HealthState.Healthy, consecutiveFailures := 0
    consecutiveSuccesses := 0 }

/-- The free second backend of the saturation counterexample. -/
def freeB2 : Backend :=
  { Backend.new "b2" 1 with state := HealthState.Healthy }

/-- The saturated-origin manager of the C7 counterexample. -/
def satMgr : BackendManager :=
  { groups := [("g", { backends := [satB1, freeB2], rrCounter := 0 })] }

/-- A route configured with an explicit port in its host. -/
def portRoute : RouteConfig :=
  { name := "r1", host := some "a:80", pathPrefix := none
    backendGroup := "g1", priority := 0 }

/-- The router compiled from `portRoute` alone. -/
def portRouter : Router := Router.fromConfig [portRoute]

/-- A request whose `Host` header carries a port. -/
def portReq : HttpRequest := { hostHeader := some "A:80", path := "/" }

/-- A catch-all route to group `g`. -/
def cxRoute : RouteConfig :=
  { name := "r", host := none, pathPrefix := none
    backendGroup := "g", priority := 0 }

/-- The router for the retried-attempt counterexample. -/
def cxRouter : Router := Router.fromConfig [cxRoute]

/-- A healthy backend of capacity 10. -/
def cxBackend : Backend := { Backend.new "b1" 10 with state := HealthState.Healthy }

/-- The guard view of `cxBackend` after one acquisition. -/
def cxGuard : Backend := { cxBackend with activeConnections := 1 }

/-- A single healthy backend in group `g`. -/
def cxMgr : BackendManager :=
  { groups := [("g", { backends := [cxBackend], rrCounter := 0 })] }

/-- Upstream oracle: the first attempt gets a 503, later ones a 200. -/
def cxOutcomes : Nat → UpstreamOutcome := fun n =>
  if n = 1 then UpstreamOutcome.response 503 false
  else UpstreamOutcome.response 200 false

/-- Handler state for the retried-attempt counterexample: fresh budget
with the program's floor of 100 and ratio 1.0. -/
def cxState : LoopState :=
  { manager := cxMgr, budget := RetryBudget.new 1 100
    tracker := ConnectionTracker.new ⟨1, 1, 1⟩ }

/-- The route `from_config` compiles out of `cxRoute`. -/
def cxCompiledRoute : Route :=
  { id := "r", matcher := Matcher.pathM "/", backendGroup := "g", priority := 0 }

/-- A handler state whose manager has no groups at all (for the 503
path). -/
def noGroupState : LoopState :=
  { manager := { groups := [] }, budget := RetryBudget.new 1 100
    tracker := ConnectionTracker.new ⟨1, 1, 1⟩ }

/-- Upstream oracle that always fails at transport level. -/
def errOutcomes : Nat → UpstreamOutcome := fun _ =>
  UpstreamOutcome.transportError

/-! ## Theorems: backend health state machine (C3, C4) -/

/-- C3 counterexample: with `healthy_threshold = 2`, one `mark_success`
on a fresh (`Unknown`) backend leaves it `Unknown` — the claim's
"transitions to Healthy on the first success without requiring the
threshold" fails for the `Unknown` state. -/
theorem mark_success_unknown_counterexample :
    ((Backend.new "b1" 10).markSuccess 2).state = HealthState.Unknown ∧
    HealthState.Unknown ≠ HealthState.Healthy := by
  decide

/-- C3 (amended): `mark_success(t)` zeros the failure counter; a
`Healthy` backend stays `Healthy` with nothing else touched; a
non-`Healthy` backend (`Unknown` or `Unhealthy` alike — there is no
first-success shortcut for `Unknown`) increments the success counter and
transitions to `Healthy` exactly when the counter reaches the
threshold, otherwise keeping its state. -/
theorem mark_success_amended (b : Backend) (t : Nat) :
    (b.markSuccess t).consecutiveFailures = 0 ∧
    (b.state = HealthState.Healthy →
      b.markSuccess t = { b with consecutiveFailures := 0 }) ∧
    (b.state ≠ HealthState.Healthy →
      (b.markSuccess t).consecutiveSuccesses = b.consecutiveSuccesses + 1 ∧
      ((b.markSuccess t).state = HealthState.Healthy ↔
        t ≤ b.consecutiveSuccesses + 1) ∧
      (¬ t ≤ b.consecutiveSuccesses + 1 → (b.markSuccess t).state = b.state)) := by
  unfold Backend.markSuccess
  by_cases hh : b.state = HealthState.Healthy
  · simp [hh]
  · by_cases ht : t ≤ b.consecutiveSuccesses + 1
    · simp [hh, ht, ge_iff_le]
    · simp [hh, ht, ge_iff_le]

/-- Witness for `mark_success_amended` at a `Healthy` and at an
`Unknown` backend. -/
theorem mark_success_amended_witness :
    ({ Backend.new "b1" 10 with state := HealthState.Healthy }.markSuccess 2
      = { Backend.new "b1" 10 with state := HealthState.Healthy }) ∧
    (((Backend.new "b2" 10).markSuccess 2).consecutiveSuccesses = 1) := by
  constructor
  · exact (mark_success_amended
      { Backend.new "b1" 10 with state := HealthState.Healthy } 2).2.1 (by decide)
  · exact ((mark_success_amended (Backend.new "b2" 10) 2).2.2 (by decide)).1

/-- C4 counterexample: with `healthy_threshold = 1`, one `mark_success`
on a fresh backend transitions `Unknown → Healthy`, yet immediately
afterwards `consecutive_failures + consecutive_successes = 1`, not 0:
the counter that drove the transition is not reset. -/
theorem transition_counters_counterexample :
    (Backend.new "b1" 10).state ≠ HealthState.Healthy ∧
    ((Backend.new "b1" 10).markSuccess 1).state = HealthState.Healthy ∧
    ((Backend.new "b1" 10).markSuccess 1).consecutiveFailures +
      ((Backend.new "b1" 10).markSuccess 1).consecutiveSuccesses = 1 := by
  decide

/-- C4 (amended): immediately after a health-state transition only the
opposite counter is zero — a transition to `Healthy` leaves
`consecutive_failures = 0` while `consecutive_successes` holds the value
(≥ threshold) that drove it, and symmetrically for a transition to
`Unhealthy`. -/
theorem transition_resets_opposite (b : Backend) (t : Nat) :
    (b.state ≠ HealthState.Healthy →
      (b.markSuccess t).state = HealthState.Healthy →
      (b.markSuccess t).consecutiveFailures = 0 ∧
      t ≤ (b.markSuccess t).consecutiveSuccesses) ∧
    (b.state ≠ HealthState.Unhealthy →
      (b.markFailure t).state = HealthState.Unhealthy →
      (b.markFailure t).consecutiveSuccesses = 0 ∧
      t ≤ (b.markFailure t).consecutiveFailures) := by
  constructor
  · intro hh
    by_cases ht : t ≤ b.consecutiveSuccesses + 1
    · intro _; simp [Backend.markSuccess, hh, ht, ge_iff_le]
    · intro htrans
      simp [Backend.markSuccess, hh, ht, ge_iff_le] at htrans
  · intro hh
    by_cases ht : t ≤ b.consecutiveFailures + 1
    · intro _; simp [Backend.markFailure, hh, ht, ge_iff_le]
    · intro htrans
      simp [Backend.markFailure, hh, ht, ge_iff_le] at htrans

/-- Witness for `transition_resets_opposite`: threshold 1 transitions a
fresh backend in one call, in either direction. -/
theorem transition_resets_opposite_witness :
    (((Backend.new "b1" 10).markSuccess 1).consecutiveFailures = 0 ∧
      1 ≤ ((Backend.new "b1" 10).markSuccess 1).consecutiveSuccesses) ∧
    (((Backend.new "b1" 10).markFailure 1).consecutiveSuccesses = 0 ∧
      1 ≤ ((Backend.new "b1" 10).markFailure 1).consecutiveFailures) := by
  constructor
  · exact (transition_resets_opposite (Backend.new "b1" 10) 1).1
      (by decide) (by decide)
  · exact (transition_resets_opposite (Backend.new "b1" 10) 1).2
      (by decide) (by decide)

/-! ## Theorems: retry budget (C6) -/

/-- C6: `can_retry()` grants (and then increments `total_retries`,
leaving `total_requests` alone) iff the request floor has not been met
or the retry ratio is below `buffer_ratio`; a refusal changes nothing.
The floor hypothesis `0 < min_requests` reflects the program, which
always constructs the budget with `min_requests = 100` (server.rs line
119); it rules out the `total_requests = 0` corner where the `f32`
quotient is `NaN`. -/
theorem can_retry_budget_spec (rb : RetryBudget) (hmin : 0 < rb.minRequests) :
    (rb.canRetry.1 = true ↔
      (rb.totalRequests < rb.minRequests ∨
        (rb.totalRetries : ℚ) / (rb.totalRequests : ℚ) < rb.bufferRatio)) ∧
    (rb.canRetry.1 = true →
      rb.canRetry.2 = { rb with totalRetries := rb.totalRetries + 1 }) ∧
    (rb.canRetry.1 = false → rb.canRetry.2 = rb) := by
  unfold RetryBudget.canRetry ratioLtBuffer
  by_cases h1 : rb.totalRequests < rb.minRequests
  · simp [h1]
  · have hne : rb.totalRequests ≠ 0 := by omega
    by_cases h2 : (rb.totalRetries : ℚ) / (rb.totalRequests : ℚ) < rb.bufferRatio
    · simp [h1, h2, hne]
    · simp [h1, h2, hne]

/-- Witness for `can_retry_budget_spec` on a fresh budget with the
program's floor of 100: the first retry is granted under the floor. -/
theorem can_retry_budget_spec_witness :
    (RetryBudget.new (1/10 : ℚ) 100).canRetry.1 = true :=
  (can_retry_budget_spec (RetryBudget.new (1/10 : ℚ) 100) (by decide)).1.mpr
    (Or.inl (by decide))

/-! ## Theorems: long-lived connection tracker (C10) -/

/-- `List.lookup` on a cons cell, with propositional equality. -/
theorem lookup_cons {α β : Type} [BEq α] [LawfulBEq α] [DecidableEq α]
    (k : α) (c : β) (tl : List (α × β)) (a : α) :
    ((k, c) :: tl).lookup a = if a = k then some c else tl.lookup a := by
  by_cases h : a = k
  · subst h; simp [List.lookup]
  · simp [List.lookup, beq_eq_false_iff_ne.mpr h, h]

/-- `List.lookup` on the empty list. -/
theorem lookup_nil {α β : Type} [BEq α] (a : α) :
    ([] : List (α × β)).lookup a = none := rfl

/-- Lookup after `setCount`: the stored value at the written key when an
entry existed (`Option.map` keeps the absent case absent), everything
else untouched. -/
theorem lookup_setCount (l : List (Address × Int)) (addr a : Address) (v : Int) :
    (setCount l addr v).lookup a =
      if a = addr then ((l.lookup addr).map fun _ => v) else l.lookup a := by
  induction l with
  | nil => by_cases ha : a = addr <;> simp [setCount, lookup_nil, ha]
  | cons hd tl ih =>
    obtain ⟨k, c⟩ := hd
    by_cases hk : k = addr
    · have hsc : setCount ((k, c) :: tl) addr v = (k, v) :: tl := by
        simp [setCount, hk]
      rw [hsc, lookup_cons k v tl a, lookup_cons k c tl addr,
        lookup_cons k c tl a, if_pos hk.symm]
      by_cases ha : a = addr
      · rw [if_pos (ha.trans hk.symm), if_pos ha]
        simp
      · rw [if_neg (fun h => ha (h.trans hk)), if_neg ha,
          if_neg (fun h => ha (h.trans hk))]
    · have hsc : setCount ((k, c) :: tl) addr v = (k, c) :: setCount tl addr v := by
        simp [setCount, hk]
      have hka : ¬ addr = k := fun h => hk h.symm
      rw [hsc, lookup_cons k c (setCount tl addr v) a, lookup_cons k c tl addr,
        lookup_cons k c tl a, if_neg hka, ih]
      by_cases ha : a = k
      · have ha2 : ¬ a = addr := fun h => hk (ha.symm.trans h)
        rw [if_pos ha, if_neg ha2, if_pos ha]
      · rw [if_neg ha, if_neg ha]

/-- Lookup across appending a single entry (`or_insert`). -/
theorem lookup_append_entry (l : List (Address × Int)) (addr a : Address)
    (v : Int) :
    (l ++ [(addr, v)]).lookup a =
      match l.lookup a with
      | some c => some c
      | none => if a = addr then some v else none := by
  induction l with
  | nil =>
    rw [List.nil_append, lookup_cons addr v [] a, lookup_nil]
  | cons hd tl ih =>
    obtain ⟨k, c⟩ := hd
    rw [List.cons_append, lookup_cons k c (tl ++ [(addr, v)]) a,
      lookup_cons k c tl a]
    by_cases ha : a = k
    · rw [if_pos ha, if_pos ha]
    · rw [if_neg ha, if_neg ha, ih]

/-- `setCount` with a non-negative value preserves non-negativity. -/
theorem nonneg_setCount (l : List (Address × Int)) (addr : Address) (w : Int)
    (hl : ∀ (a : Address) (c : Int), l.lookup a = some c → 0 ≤ c)
    (hw : 0 ≤ w) :
    ∀ (a : Address) (c : Int), (setCount l addr w).lookup a = some c → 0 ≤ c := by
  intro a c hc
  rw [lookup_setCount] at hc
  by_cases ha : a = addr
  · rw [if_pos ha] at hc
    rcases hm : l.lookup addr with _ | u
    · rw [hm] at hc; cases hc
    · rw [hm] at hc
      simp only [Option.map_some'] at hc
      cases hc
      exact hw
  · rw [if_neg ha] at hc
    exact hl a c hc

/-- `try_increment` preserves non-negativity of every count. -/
theorem nonneg_tryIncrement (t : ConnectionTracker) (addr : Address)
    (tierId : Nat) (h : nonnegCounts t) :
    nonnegCounts (t.tryIncrement addr tierId).2 := by
  intro a c hc
  unfold ConnectionTracker.tryIncrement at hc
  rcases hl : t.counts.lookup addr with _ | v
  · simp only [hl] at hc
    have happ : (t.counts ++ [(addr, (0 : Int))]).lookup addr = some 0 := by
      rw [lookup_append_entry, hl]
      simp
    have hnn : ∀ (a' : Address) (c' : Int),
        (t.counts ++ [(addr, (0 : Int))]).lookup a' = some c' → 0 ≤ c' := by
      intro a' c' hc'
      rw [lookup_append_entry] at hc'
      rcases hl' : t.counts.lookup a' with _ | w
      · rw [hl'] at hc'
        by_cases ha' : a' = addr
        · simp [ha'] at hc'; omega
        · simp [ha'] at hc'
      · rw [hl'] at hc'
        simp only at hc'
        cases hc'
        exact h a' c' hl'
    rw [happ] at hc
    simp only [Option.getD_some] at hc
    split at hc
    · exact nonneg_setCount _ addr (0 + 1) hnn (by omega) a c hc
    · exact hnn a c hc
  · simp only [hl, Option.getD_some] at hc
    have hv : 0 ≤ v := h addr v hl
    split at hc
    · exact nonneg_setCount _ addr (v + 1) h (by omega) a c hc
    · exact h a c hc

/-- `decrement` preserves non-negativity of every count. -/
theorem nonneg_decrement (t : ConnectionTracker) (addr : Address)
    (h : nonnegCounts t) : nonnegCounts (t.decrement addr) := by
  intro a c hc
  unfold ConnectionTracker.decrement at hc
  rcases hl : t.counts.lookup addr with _ | v
  · simp only [hl] at hc
    exact h a c hc
  · simp only [hl] at hc
    split at hc
    · rw [lookup_setCount] at hc
      by_cases ha : a = addr
      · rw [if_pos ha, hl] at hc
        simp only [Option.map_some'] at hc
        cases hc
        have := h addr v hl
        omega
      · rw [if_neg ha] at hc
        exact h a c hc
    · exact h a c hc

/-- Running any call sequence preserves non-negativity. -/
theorem nonneg_run (t : ConnectionTracker) (ops : List QosOp)
    (h : nonnegCounts t) : nonnegCounts (t.run ops) := by
  induction ops generalizing t with
  | nil => exact h
  | cons op rest ih =>
    cases op with
    | inc addr tierId => exact ih _ (nonneg_tryIncrement t addr tierId h)
    | dec addr => exact ih _ (nonneg_decrement t addr h)

/-- C10: `decrement` is a no-op on a missing or zero entry and subtracts
exactly one from a positive one; `try_increment` increments exactly when
the current count is below the tier limit; and every count reachable
from a fresh tracker by any sequence of `try_increment`/`decrement`
calls is non-negative. -/
theorem connection_tracker_nonneg :
    (∀ (t : ConnectionTracker) (addr : Address),
      t.counts.lookup addr = none → t.decrement addr = t) ∧
    (∀ (t : ConnectionTracker) (addr : Address),
      t.counts.lookup addr = some 0 → t.decrement addr = t) ∧
    (∀ (t : ConnectionTracker) (addr : Address) (c : Int),
      t.counts.lookup addr = some c → 0 < c →
      (t.decrement addr).counts.lookup addr = some (c - 1)) ∧
    (∀ (t : ConnectionTracker) (addr : Address) (tierId : Nat),
      ((t.tryIncrement addr tierId).1 = true ↔
        (t.counts.lookup addr).getD 0 < ((t.config.tierLimit tierId : Nat) : Int)) ∧
      ((t.tryIncrement addr tierId).1 = true →
        (t.tryIncrement addr tierId).2.counts.lookup addr =
          some ((t.counts.lookup addr).getD 0 + 1))) ∧
    (∀ (cfg : QosConfig) (ops : List QosOp) (addr : Address) (c : Int),
      ((ConnectionTracker.new cfg).run ops).counts.lookup addr = some c →
      0 ≤ c) := by
  refine ⟨?_, ?_, ?_, ?_, ?_⟩
  · intro t addr hl
    unfold ConnectionTracker.decrement
    simp only [hl]
  · intro t addr hl
    unfold ConnectionTracker.decrement
    simp only [hl]
    simp
  · intro t addr c hl hc
    unfold ConnectionTracker.decrement
    simp only [hl, if_pos hc]
    rw [lookup_setCount, if_pos rfl, hl]
    simp
  · intro t addr tierId
    unfold ConnectionTracker.tryIncrement
    rcases hl : t.counts.lookup addr with _ | v
    · have happ : (t.counts ++ [(addr, (0 : Int))]).lookup addr = some 0 := by
        rw [lookup_append_entry, hl]
        simp
      simp only [hl, happ, Option.getD_some]
      by_cases hlt : (0 : Int) < ((t.config.tierLimit tierId : Nat) : Int)
      · simp only [if_pos hlt]
        refine ⟨by simp [hlt], fun _ => ?_⟩
        rw [lookup_setCount, if_pos rfl, happ]
        simp
      · simp only [if_neg hlt]
        exact ⟨by simp [hlt], fun hfalse => by simp at hfalse⟩
    · simp only [hl, Option.getD_some]
      by_cases hlt : v < ((t.config.tierLimit tierId : Nat) : Int)
      · simp only [if_pos hlt]
        refine ⟨by simp [hlt], fun _ => ?_⟩
        rw [lookup_setCount, if_pos rfl, hl]
        simp
      · simp only [if_neg hlt]
        exact ⟨by simp [hlt], fun hfalse => by simp at hfalse⟩
  · intro cfg ops addr c hc
    refine nonneg_run (ConnectionTracker.new cfg) ops ?_ addr c hc
    intro a c' hc'
    simp [ConnectionTracker.new, lookup_nil] at hc'

/-- Witness for `connection_tracker_nonneg`: `decrement` on the empty
map is a no-op, and the count left at address 5 by increment, decrement,
decrement (the last a no-op at zero) is non-negative. -/
theorem connection_tracker_nonneg_witness :
    ((ConnectionTracker.new ⟨1, 1, 1⟩).decrement 5 =
      ConnectionTracker.new ⟨1, 1, 1⟩) ∧ (0 : Int) ≤ 0 := by
  constructor
  · exact connection_tracker_nonneg.1 (ConnectionTracker.new ⟨1, 1, 1⟩) 5 (by decide)
  · exact connection_tracker_nonneg.2.2.2.2 ⟨1, 1, 1⟩
      [QosOp.inc 5 1, QosOp.dec 5, QosOp.dec 5] 5 0 (by decide)

/-! ## Theorems: backend selection (C1, C7) -/

/-- A successful `rrScan` hit is a healthy backend. -/
theorem rrScan_healthy (bs : List Backend) (c : Nat) :
    ∀ (remaining i idx : Nat), rrScan bs c i remaining = some idx →
      ∃ b, bs[idx]? = some b ∧ b.isHealthy = true := by
  intro remaining
  induction remaining with
  | zero => intro i idx h; cases h
  | succ r ih =>
    intro i idx h
    unfold rrScan at h
    rcases hb : bs[(c + i) % bs.length]? with _ | b <;> simp only [hb] at h
    · exact ih (i + 1) idx h
    · by_cases hh : b.isHealthy
      · rw [if_pos hh] at h
        cases h
        exact ⟨b, hb, hh⟩
      · rw [if_neg hh] at h
        exact ih (i + 1) idx h

/-- Full characterisation of a successful `BackendManager::get`: the
group exists, the load balancer chose index `idx` (hence a healthy
backend), and the CAS succeeded because the backend was strictly below
its connection limit, the guard being its incremented view. -/
theorem get_some_spec (m : BackendManager) (name : String) (res : GetResult)
    (m' : BackendManager) (h : m.get name = (some res, m')) :
    ∃ g, m.groups.lookup name = some g ∧
      nextServer g.backends g.rrCounter = some res.idx ∧
      g.backends[res.idx]? = some res.pre ∧
      res.pre.isHealthy = true ∧
      res.pre.activeConnections < res.pre.maxConnections ∧
      res.guard =
        { res.pre with activeConnections := res.pre.activeConnections + 1 } := by
  unfold BackendManager.get at h
  rcases hg : m.groups.lookup name with _ | g <;> simp only [hg] at h
  · simp at h
  by_cases hlen : g.backends.length = 0
  · rw [if_pos hlen] at h
    simp at h
  rw [if_neg hlen] at h
  rcases hns : nextServer g.backends g.rrCounter with _ | idx <;>
    simp only [hns] at h
  · simp at h
  rcases hb : g.backends[idx]? with _ | b <;> simp only [hb] at h
  · simp at h
  rcases hcg : b.tryCreateGuard with _ | b' <;> simp only [hcg] at h
  · simp at h
  have hres : GetResult.mk idx b b' = res := by
    have := congrArg Prod.fst h
    simpa using this
  subst hres
  unfold Backend.tryCreateGuard at hcg
  by_cases hsat : b.activeConnections ≥ b.maxConnections
  · rw [if_pos hsat] at hcg; cases hcg
  · rw [if_neg hsat] at hcg
    have hb' : b' = { b with activeConnections := b.activeConnections + 1 } :=
      (Option.some.inj hcg).symm
    refine ⟨g, rfl, hns, hb, ?_, ?_, ?_⟩
    · rw [nextServer, if_neg hlen] at hns
      obtain ⟨bb, hbb, hh⟩ := rrScan_healthy g.backends g.rrCounter
        g.backends.length 0 idx hns
      rw [hb] at hbb
      cases hbb
      exact hh
    · show b.activeConnections < b.maxConnections
      omega
    · show b' = { b with activeConnections := b.activeConnections + 1 }
      exact hb'

/-- Every selection the attempt loop records satisfies `selPred`. -/
theorem attemptLoop_selections_all (hc : HealthCfg) (method : Method)
    (maxAttempts : Nat) (outcomes : Nat → UpstreamOutcome) (groupName : String)
    (userCtx : Option UserContext) :
    ∀ (fuel attempts : Nat) (st : LoopState) (marks : List MarkEvent)
      (sels : List SelEvent), sels.all selPred = true →
      ((attemptLoop hc method maxAttempts outcomes groupName userCtx
        fuel attempts st marks sels).selections.all selPred) = true := by
  intro fuel
  induction fuel with
  | zero => intro attempts st marks sels hsels; exact hsels
  | succ f ih =>
    intro attempts st marks sels hsels
    rw [attemptLoop]
    rcases hget : st.manager.get groupName with ⟨_ | res, m'⟩ <;>
      simp only [hget]
    · exact hsels
    have hpred : selPred (SelEvent.mk (attempts + 1) res.pre res.guard) = true := by
      obtain ⟨g, _, _, _, hh, hlt, hguard⟩ :=
        get_some_spec st.manager groupName res m' hget
      unfold selPred
      rw [hguard]
      simp only [hh, Bool.true_and, decide_eq_true_eq]
      omega
    have hsels' :
        (sels ++ [SelEvent.mk (attempts + 1) res.pre res.guard]).all selPred
          = true := by
      rw [List.all_append, hsels]
      simp [hpred]
    rcases houtcome : outcomes (attempts + 1) with _ | ⟨status, isSse⟩ <;>
      simp only [houtcome]
    · -- transport error
      split
      · rcases hcr : st.budget.canRetry with ⟨ok, budget⟩
        simp only [hcr]
        split
        · exact ih _ _ _ _ hsels'
        · exact hsels'
      · exact hsels'
    · -- response
      split
      · rcases hcr : st.budget.canRetry with ⟨ok, budget⟩
        simp only [hcr]
        split
        · exact ih _ _ _ _ hsels'
        · split
          · split
            · rcases hti : st.tracker.tryIncrement _ _ with ⟨tok, tracker⟩
              simp only [hti]
              split
              · exact hsels'
              · exact hsels'
            · exact hsels'
          · exact hsels'
      · split
        · split
          · rcases hti : st.tracker.tryIncrement _ _ with ⟨tok, tracker⟩
            simp only [hti]
            split
            · exact hsels'
            · exact hsels'
          · exact hsels'
        · exact hsels'

/-- C1: a guard returned by `BackendManager::get` always wraps a backend
that was not `Unhealthy` at selection time and whose connection count
was strictly below its limit when the CAS succeeded, so the guard's
count stays within the limit; and every selection recorded along any
run of the forwarding engine satisfies the same property (no request is
forwarded to an `Unhealthy` backend). -/
theorem selection_healthy_and_bounded :
    (∀ (m : BackendManager) (name : String) (res : GetResult)
      (m' : BackendManager), m.get name = (some res, m') →
      res.pre.state ≠ HealthState.Unhealthy ∧
      res.pre.activeConnections < res.pre.maxConnections ∧
      res.guard.activeConnections = res.pre.activeConnections + 1 ∧
      res.guard.activeConnections ≤ res.guard.maxConnections) ∧
    (∀ (rc : RetriesCfg) (hc : HealthCfg) (router : Router) (st : LoopState)
      (req : HttpRequest) (method : Method) (bodyBufferOk : Bool)
      (outcomes : Nat → UpstreamOutcome) (userCtx : Option UserContext),
      ((proxyHandler rc hc router st req method bodyBufferOk outcomes
        userCtx).selections.all selPred) = true) := by
  constructor
  · intro m name res m' h
    obtain ⟨g, _, _, _, hh, hlt, hguard⟩ := get_some_spec m name res m' h
    refine ⟨?_, hlt, ?_, ?_⟩
    · unfold Backend.isHealthy at hh
      exact of_decide_eq_true hh
    · rw [hguard]
    · rw [hguard]
      simp only []
      omega
  · intro rc hc router st req method bodyBufferOk outcomes userCtx
    unfold proxyHandler
    rcases hroute : router.matchRequest req with _ | route <;>
      simp only [hroute]
    · rfl
    · exact attemptLoop_selections_all hc method _ outcomes route.backendGroup
        userCtx _ 0 _ [] [] rfl

/-- Witness for `selection_healthy_and_bounded` at `wMgr`. -/
theorem selection_healthy_and_bounded_witness :
    (Backend.new "b1" 2).state ≠ HealthState.Unhealthy ∧
    (Backend.new "b1" 2).activeConnections < (Backend.new "b1" 2).maxConnections ∧
    ({ Backend.new "b1" 2 with activeConnections := 1 }).activeConnections =
      (Backend.new "b1" 2).activeConnections + 1 ∧
    ({ Backend.new "b1" 2 with activeConnections := 1 }).activeConnections ≤
      ({ Backend.new "b1" 2 with activeConnections := 1 }).maxConnections :=
  selection_healthy_and_bounded.1 wMgr "g"
    (GetResult.mk 0 (Backend.new "b1" 2)
      { Backend.new "b1" 2 with activeConnections := 1 })
    (wMgr.get "g").2 (by decide)

/-- C7 counterexample: the round-robin scan only skips unhealthy
backends, so it selects the saturated-but-healthy first backend; the
single `try_create_guard` then fails and `get` returns `None`, even
though the group's second backend is healthy and below its limit. -/
theorem round_robin_saturated_counterexample :
    (satMgr.get "g").1 = none ∧
    nextServer [satB1, freeB2] 0 = some 0 ∧
    satB1.isHealthy = true ∧
    satB1.activeConnections = satB1.maxConnections ∧
    freeB2.isHealthy = true ∧
    freeB2.activeConnections < freeB2.maxConnections := by
  decide

/-- `rrScan` finds the first healthy offset, in scan order. -/
theorem rrScan_eq_find (bs : List Backend) (c : Nat) :
    ∀ (remaining i : Nat),
      rrScan bs c i remaining =
        ((List.range remaining).find? fun j => healthyIdx bs (c + i + j)).map
          fun j => (c + i + j) % bs.length := by
  intro remaining
  induction remaining with
  | zero => intro i; simp [rrScan]
  | succ r ih =>
    intro i
    have harith : ∀ j : Nat, c + (i + 1) + j = c + i + (j + 1) := by omega
    unfold rrScan
    rw [List.range_succ_eq_map, List.find?_cons]
    rcases hb : bs[(c + i) % bs.length]? with _ | b
    · have hfalse : healthyIdx bs (c + i + 0) = false := by
        unfold healthyIdx
        rw [Nat.add_zero]
        simp only [hb]
      simp only [hb, hfalse, List.find?_map, Option.map_map]
      rw [ih (i + 1)]
      simp only [harith]
      have hfun : ((fun j => (c + i + j) % bs.length) ∘ Nat.succ) =
          fun j => (c + i + (j + 1)) % bs.length := by
        funext j
        simp [Function.comp, Nat.succ_eq_add_one]
      have hfun2 : ((fun j => healthyIdx bs (c + i + j)) ∘ Nat.succ) =
          fun j => healthyIdx bs (c + i + (j + 1)) := by
        funext j
        simp [Function.comp, Nat.succ_eq_add_one]
      rw [hfun, hfun2]
    · by_cases hh : b.isHealthy
      · have htrue : healthyIdx bs (c + i + 0) = true := by
          unfold healthyIdx
          rw [Nat.add_zero]
          simp only [hb]
          exact hh
        simp only [hb, if_pos hh, htrue]
        simp
      · have hfalse : healthyIdx bs (c + i + 0) = false := by
          unfold healthyIdx
          rw [Nat.add_zero]
          simp only [hb]
          simpa using hh
        simp only [hb, if_neg hh, hfalse, List.find?_map, Option.map_map]
        rw [ih (i + 1)]
        simp only [harith]
        have hfun : ((fun j => (c + i + j) % bs.length) ∘ Nat.succ) =
            fun j => (c + i + (j + 1)) % bs.length := by
          funext j
          simp [Function.comp, Nat.succ_eq_add_one]
        have hfun2 : ((fun j => healthyIdx bs (c + i + j)) ∘ Nat.succ) =
            fun j => healthyIdx bs (c + i + (j + 1)) := by
          funext j
          simp [Function.comp, Nat.succ_eq_add_one]
        rw [hfun, hfun2]

/-- `next_server` is exactly "first healthy in scan order". -/
theorem nextServer_eq_firstHealthy (bs : List Backend) (c : Nat) :
    nextServer bs c = nextServerFirstHealthy bs c := by
  unfold nextServer nextServerFirstHealthy
  by_cases h : bs.length = 0
  · simp [h]
  · rw [if_neg h, if_neg h, rrScan_eq_find bs c bs.length 0]
    simp

/-- C7 (amended): round-robin scans up to `N` positions from
`counter mod N` and returns the **first healthy** backend (saturation
does not affect the scan); `get` then attempts `try_create_guard` once,
on that backend alone, and returns `None` whenever this single
acquisition fails — even if a later healthy, non-saturated backend
exists. -/
theorem round_robin_amended :
    (∀ (bs : List Backend) (c : Nat),
      nextServer bs c = nextServerFirstHealthy bs c) ∧
    (∀ (m : BackendManager) (name : String) (res : GetResult)
      (m' : BackendManager), m.get name = (some res, m') →
      ∃ g, m.groups.lookup name = some g ∧
        nextServer g.backends g.rrCounter = some res.idx ∧
        g.backends[res.idx]? = some res.pre ∧
        res.pre.tryCreateGuard = some res.guard) ∧
    (∀ (m : BackendManager) (name : String) (g : Group) (idx : Nat)
      (b : Backend), m.groups.lookup name = some g →
      nextServer g.backends g.rrCounter = some idx →
      g.backends[idx]? = some b →
      b.maxConnections ≤ b.activeConnections →
      (m.get name).1 = none) := by
  refine ⟨nextServer_eq_firstHealthy, ?_, ?_⟩
  · intro m name res m' h
    obtain ⟨g, hg, hns, hb, _, hlt, hguard⟩ := get_some_spec m name res m' h
    refine ⟨g, hg, hns, hb, ?_⟩
    unfold Backend.tryCreateGuard
    rw [if_neg (by omega), hguard]
  · intro m name g idx b hg hns hb hsat
    unfold BackendManager.get
    rw [hg]
    simp only []
    have hlen : g.backends.length ≠ 0 := by
      intro h0
      rw [List.getElem?_eq_none (by omega)] at hb
      cases hb
    rw [if_neg hlen, hns]
    simp only [hb]
    have hcg : b.tryCreateGuard = none := by
      unfold Backend.tryCreateGuard
      rw [if_pos (show b.activeConnections ≥ b.maxConnections by omega)]
    rw [hcg]

/-- Witness for `round_robin_amended`: its selection characterisation at
`wMgr` and its saturation case at `satMgr`. -/
theorem round_robin_amended_witness :
    (∃ g, wMgr.groups.lookup "g" = some g ∧
      nextServer g.backends g.rrCounter = some 0 ∧
      g.backends[(0 : Nat)]? = some (Backend.new "b1" 2) ∧
      (Backend.new "b1" 2).tryCreateGuard =
        some { Backend.new "b1" 2 with activeConnections := 1 }) ∧
    (satMgr.get "g").1 = none := by
  constructor
  · exact round_robin_amended.2.1 wMgr "g"
      (GetResult.mk 0 (Backend.new "b1" 2)
        { Backend.new "b1" 2 with activeConnections := 1 })
      (wMgr.get "g").2 (by decide)
  · exact round_robin_amended.2.2 satMgr "g"
      { backends := [satB1, freeB2], rrCounter := 0 } 0 satB1
      (by decide) (by decide) (by decide) (by decide)

/-! ## Theorems: routing (C2) -/

/-- Inserting into a descending-priority-sorted list keeps it sorted. -/
theorem routesSortedDesc_insert (r : Route) :
    ∀ (l : List Route), routesSortedDesc l = true →
      routesSortedDesc (insertByPriority r l) = true := by
  intro l
  induction l with
  | nil => intro _; simp [insertByPriority, routesSortedDesc]
  | cons x xs ih =>
    intro h
    by_cases hr : r.priority ≤ x.priority
    · have heq : insertByPriority r (x :: xs) = x :: insertByPriority r xs := by
        simp [insertByPriority, hr]
      rw [heq]
      cases xs with
      | nil => simp [insertByPriority, routesSortedDesc, hr]
      | cons y ys =>
        have hparts : y.priority ≤ x.priority ∧ routesSortedDesc (y :: ys) = true := by
          simpa [routesSortedDesc, Bool.and_eq_true] using h
        by_cases hr2 : r.priority ≤ y.priority
        · have heq2 : insertByPriority r (y :: ys) = y :: insertByPriority r ys := by
            simp [insertByPriority, hr2]
          have hrec : routesSortedDesc (insertByPriority r (y :: ys)) = true :=
            ih hparts.2
          rw [heq2] at hrec
          rw [heq2]
          simp [routesSortedDesc, hparts.1, hrec]
        · have heq2 : insertByPriority r (y :: ys) = r :: y :: ys := by
            simp [insertByPriority, hr2]
          rw [heq2]
          have hyr : y.priority ≤ r.priority := by omega
          simp [routesSortedDesc, hr, hyr, hparts.2]
    · have heq : insertByPriority r (x :: xs) = r :: x :: xs := by
        simp [insertByPriority, hr]
      rw [heq]
      have hxr : x.priority ≤ r.priority := by omega
      cases xs with
      | nil => simp [routesSortedDesc, hxr]
      | cons y ys =>
        have hparts : y.priority ≤ x.priority ∧ routesSortedDesc (y :: ys) = true := by
          simpa [routesSortedDesc, Bool.and_eq_true] using h
        simp [routesSortedDesc, hxr, hparts.1, hparts.2]

/-- The compiled sort produces a descending-priority list. -/
theorem routesSortedDesc_sort (rs : List Route) :
    routesSortedDesc (sortByPriorityDesc rs) = true := by
  unfold sortByPriorityDesc
  suffices h : ∀ (acc : List Route), routesSortedDesc acc = true →
      routesSortedDesc
        (rs.foldl (fun acc r => insertByPriority r acc) acc) = true from
    h [] rfl
  induction rs with
  | nil => intro acc h; exact h
  | cons r rest ih =>
    intro acc h
    exact ih _ (routesSortedDesc_insert r acc h)

/-- Every bucket compiled by `from_config` is sorted by descending
priority. -/
theorem bucketsSortedDesc_fromConfig (configs : List RouteConfig) :
    (Router.fromConfig configs).bucketsSortedDesc = true := by
  unfold Router.fromConfig Router.bucketsSortedDesc
  simp only [List.all_map]
  apply List.all_eq_true.mpr
  intro p _
  simpa [Function.comp] using routesSortedDesc_sort p.2

/-- C2 counterexample: with a route whose configured host is `a:80`, a
request with `Host: A:80` is matched by the code (no port stripping),
while the spec's procedure — which strips the port before the bucket
lookup — finds nothing. -/
theorem match_request_port_counterexample :
    ((portRouter.matchRequest portReq).map Route.id) = some "r1" ∧
    ((portRouter.matchRequestSpecStrip portReq).map Route.id) = none ∧
    stripPort "a:80" = "a" := by
  refine ⟨by decide, by decide, by decide⟩

/-- C2 (amended): route matching derives the lookup host by lowercasing
the inbound `Host` header only — the code deliberately skips port
stripping — then looks up that bucket, returns the first accepting
route in the bucket's order (descending priority by compilation),
falls back to the wildcard bucket, and returns `None` (never an error)
when no route accepts. -/
theorem match_request_amended (configs : List RouteConfig) (req : HttpRequest) :
    (Router.fromConfig configs).bucketsSortedDesc = true ∧
    (Router.fromConfig configs).matchRequest req =
      (Router.fromConfig configs).matchRequestSpecNoStrip req :=
  ⟨bucketsSortedDesc_fromConfig configs, rfl⟩

/-! ## Theorems: the attempt loop (C5, C8) -/

/-- The shape invariant of one loop run: the attempt counter is bounded
by `max_attempts` (and monotone), and the marking trace grows by exactly
one event — carrying the final attempt number and the classification of
the final outcome — when the verdict is a pass-through response or a
502, and not at all otherwise.  In particular retried attempts never
mark. -/
theorem attemptLoop_shape (hc : HealthCfg) (method : Method)
    (maxAttempts : Nat) (outcomes : Nat → UpstreamOutcome)
    (groupName : String) (userCtx : Option UserContext) :
    ∀ (fuel attempts : Nat) (st : LoopState) (marks : List MarkEvent)
      (sels : List SelEvent),
      (attemptLoop hc method maxAttempts outcomes groupName userCtx
          fuel attempts st marks sels).attemptsMade
        ≤ max (attempts + 1) maxAttempts ∧
      attempts ≤ (attemptLoop hc method maxAttempts outcomes groupName userCtx
          fuel attempts st marks sels).attemptsMade ∧
      (match (attemptLoop hc method maxAttempts outcomes groupName userCtx
          fuel attempts st marks sels).outcome with
       | ProxyOutcome.upstream s =>
           (attemptLoop hc method maxAttempts outcomes groupName userCtx
             fuel attempts st marks sels).marks =
           marks ++ [MarkEvent.mk
             (attemptLoop hc method maxAttempts outcomes groupName userCtx
               fuel attempts st marks sels).attemptsMade
             (responseMarksFailure s)]
       | ProxyOutcome.upstreamFailed =>
           (attemptLoop hc method maxAttempts outcomes groupName userCtx
             fuel attempts st marks sels).marks =
           marks ++ [MarkEvent.mk
             (attemptLoop hc method maxAttempts outcomes groupName userCtx
               fuel attempts st marks sels).attemptsMade true]
       | _ =>
           (attemptLoop hc method maxAttempts outcomes groupName userCtx
             fuel attempts st marks sels).marks = marks) := by
  intro fuel
  induction fuel with
  | zero =>
    intro attempts st marks sels
    refine ⟨by simp [attemptLoop], by simp [attemptLoop], ?_⟩
    simp [attemptLoop]
  | succ f ih =>
    intro attempts st marks sels
    rw [attemptLoop]
    rcases hget : st.manager.get groupName with ⟨_ | res, m'⟩ <;>
      simp only [hget]
    · exact ⟨by simp, by simp, by simp⟩
    rcases houtcome : outcomes (attempts + 1) with _ | ⟨status, isSse⟩ <;>
      simp only [houtcome]
    · -- transport error
      split
      next hcond =>
        rw [Bool.and_eq_true, decide_eq_true_eq] at hcond
        rcases hcr : st.budget.canRetry with ⟨ok, budget⟩
        simp only [hcr]
        split
        · have h := ih (attempts + 1)
            ⟨m'.releaseGuard groupName res.idx, budget, st.tracker⟩
            marks (sels ++ [SelEvent.mk (attempts + 1) res.pre res.guard])
          exact ⟨by omega, by omega, h.2.2⟩
        · exact ⟨by simp, by simp, by simp⟩
      next hcond =>
        exact ⟨by simp, by simp, by simp⟩
    · -- response
      split
      next hcond =>
        rw [Bool.and_eq_true, decide_eq_true_eq] at hcond
        rcases hcr : st.budget.canRetry with ⟨ok, budget⟩
        simp only [hcr]
        split
        · have h := ih (attempts + 1)
            ⟨m'.releaseGuard groupName res.idx, budget, st.tracker⟩
            marks (sels ++ [SelEvent.mk (attempts + 1) res.pre res.guard])
          exact ⟨by omega, by omega, h.2.2⟩
        · split
          · split
            · rcases hti : st.tracker.tryIncrement _ _ with ⟨tok, tracker⟩
              simp only [hti]
              split
              · exact ⟨by simp, by simp, by simp⟩
              · exact ⟨by simp, by simp, by simp⟩
            · exact ⟨by simp, by simp, by simp⟩
          · exact ⟨by simp, by simp, by simp⟩
      next hcond =>
        split
        · split
          · rcases hti : st.tracker.tryIncrement _ _ with ⟨tok, tracker⟩
            simp only [hti]
            split
            · exact ⟨by simp, by simp, by simp⟩
            · exact ⟨by simp, by simp, by simp⟩
          · exact ⟨by simp, by simp, by simp⟩
        · exact ⟨by simp, by simp, by simp⟩

/-- C5: `is_retryable` does **not** return false for `POST` — the
`method != POST` clause in the idempotency guard lets `POST` through,
so a transport error or a 502/503/504 status makes a `POST` retryable,
contradicting both the claim and the function's own comment ("we follow
the strict rule: only idempotent").  The engine nevertheless caps
`POST` at one upstream attempt, because `max_attempts` falls back to 1
for a non-idempotent, non-`GET`/`HEAD` method. -/
theorem is_retryable_post_divergence :
    isRetryable Method.POST none true = true ∧
    isRetryable Method.POST (some 503) false = true ∧
    Method.isIdempotent Method.POST = false ∧
    (∀ (rc : RetriesCfg) (hc : HealthCfg) (router : Router) (st : LoopState)
      (req : HttpRequest) (bodyBufferOk : Bool)
      (outcomes : Nat → UpstreamOutcome) (userCtx : Option UserContext),
      (proxyHandler rc hc router st req Method.POST bodyBufferOk outcomes
        userCtx).attemptsMade ≤ 1) := by
  refine ⟨by decide, by decide, by decide, ?_⟩
  intro rc hc router st req bodyBufferOk outcomes userCtx
  unfold proxyHandler
  rcases hroute : router.matchRequest req with _ | route <;> simp only [hroute]
  · simp
  · have hM : computeMaxAttempts rc Method.POST
        (rc.enabled && Method.isIdempotent Method.POST && bodyBufferOk) = 1 := by
      simp [computeMaxAttempts, Method.isIdempotent]
    rw [hM]
    have h := (attemptLoop_shape hc Method.POST 1 outcomes route.backendGroup
      userCtx (max 1 1) 0 ⟨st.manager, st.budget.recordRequest, st.tracker⟩
      [] []).1
    simpa using h

/-- C8 counterexample: with `max_attempts = 3`, an upstream 503 on the
first attempt is retried and marks **no** health state at all; only the
final attempt's 200 marks (a success).  The claim's "health marking
happens on every attempt outcome, even those not visible to the client"
fails at attempt 1. -/
theorem health_marking_retried_counterexample :
    (proxyHandler ⟨true, 3⟩ ⟨2, 3⟩ cxRouter cxState
      { hostHeader := none, path := "/" } Method.GET true cxOutcomes
      none).attemptsMade = 2 ∧
    (proxyHandler ⟨true, 3⟩ ⟨2, 3⟩ cxRouter cxState
      { hostHeader := none, path := "/" } Method.GET true cxOutcomes
      none).outcome = ProxyOutcome.upstream 200 ∧
    (proxyHandler ⟨true, 3⟩ ⟨2, 3⟩ cxRouter cxState
      { hostHeader := none, path := "/" } Method.GET true cxOutcomes
      none).marks = [MarkEvent.mk 2 false] := by
  refine ⟨by decide, by decide, by decide⟩

/-- C8 (amended): health marking happens only for the attempt that
produces the client-visible verdict — one `mark_failure` for a
transport error ending in 502 or for a final 502/503/504 response, one
`mark_success` for any other final response, and none at all on the
routing-miss, no-backend and SSE-quota paths; retried attempts never
mark. -/
theorem health_marking_final_only (rc : RetriesCfg) (hc : HealthCfg)
    (router : Router) (st : LoopState) (req : HttpRequest) (method : Method)
    (bodyBufferOk : Bool) (outcomes : Nat → UpstreamOutcome)
    (userCtx : Option UserContext) :
    (match (proxyHandler rc hc router st req method bodyBufferOk outcomes
        userCtx).outcome with
     | ProxyOutcome.upstream s =>
        (proxyHandler rc hc router st req method bodyBufferOk outcomes
          userCtx).marks =
        [MarkEvent.mk (proxyHandler rc hc router st req method bodyBufferOk
          outcomes userCtx).attemptsMade (responseMarksFailure s)]
     | ProxyOutcome.upstreamFailed =>
        (proxyHandler rc hc router st req method bodyBufferOk outcomes
          userCtx).marks =
        [MarkEvent.mk (proxyHandler rc hc router st req method bodyBufferOk
          outcomes userCtx).attemptsMade true]
     | _ =>
        (proxyHandler rc hc router st req method bodyBufferOk outcomes
          userCtx).marks = []) ∧
    (∀ s, responseMarksFailure s =
      (decide (s = 502) || decide (s = 503) || decide (s = 504))) := by
  constructor
  · unfold proxyHandler
    rcases hroute : router.matchRequest req with _ | route
    · simp only [hroute]
    · simp only [hroute]
      have h := (attemptLoop_shape hc method
        (computeMaxAttempts rc method
          (rc.enabled && method.isIdempotent && bodyBufferOk))
        outcomes route.backendGroup userCtx
        (max (computeMaxAttempts rc method
          (rc.enabled && method.isIdempotent && bodyBufferOk)) 1) 0
        ⟨st.manager, st.budget.recordRequest, st.tracker⟩ [] []).2.2
      simpa using h
  · intro s
    unfold responseMarksFailure isServerError
    by_cases h5 : 500 ≤ s ∧ s ≤ 599
    · rw [if_pos (by simp [h5.1, h5.2])]
    · rw [if_neg (by simp only [Bool.and_eq_true, decide_eq_true_eq]; omega)]
      have h2 : s ≠ 502 ∧ s ≠ 503 ∧ s ≠ 504 := by omega
      simp [h2.1, h2.2.1, h2.2.2]

/-! ## Theorems: error status mapping (C9) -/

/-- C9 counterexample: with payments enabled, a malformed
`X-User-Address` is rejected with **400** (`BAD_REQUEST`), not with the
claimed 401 or 403. -/
theorem malformed_address_status_counterexample :
    accessControlMiddleware true (some "not-an-address") (fun _ => none)
      (fun _ => none) 0 0 = AcOutcome.reject 400 ∧
    ((400 : Nat) ≠ 401 ∧ (400 : Nat) ≠ 403) := by
  exact ⟨rfl, by decide⟩

/-- C9 (amended): with payments enabled a missing `X-User-Address`
returns 401 and a malformed one returns **400** (not 401/403); an
absent or expired subscription returns 403; a request matching no route
returns 404; a matched request with no selectable backend returns 503;
and an upstream transport failure with no retry left returns 502. -/
theorem error_status_mapping :
    (∀ (parse : String → Option Address)
      (cache : Address → Option SubscriptionInfo) (grace now : Nat),
      accessControlMiddleware true none parse cache grace now =
        AcOutcome.reject 401) ∧
    (∀ (v : String) (parse : String → Option Address)
      (cache : Address → Option SubscriptionInfo) (grace now : Nat),
      parse v = none →
      accessControlMiddleware true (some v) parse cache grace now =
        AcOutcome.reject 400) ∧
    (∀ (v : String) (parse : String → Option Address)
      (cache : Address → Option SubscriptionInfo) (grace now : Nat)
      (addr : Address), parse v = some addr → cache addr = none →
      accessControlMiddleware true (some v) parse cache grace now =
        AcOutcome.reject 403) ∧
    (∀ (v : String) (parse : String → Option Address)
      (cache : Address → Option SubscriptionInfo) (grace now : Nat)
      (addr : Address) (sub : SubscriptionInfo),
      parse v = some addr → cache addr = some sub →
      sub.isActiveWithGrace grace now = false →
      accessControlMiddleware true (some v) parse cache grace now =
        AcOutcome.reject 403) ∧
    (∀ (rc : RetriesCfg) (hc : HealthCfg) (router : Router) (st : LoopState)
      (req : HttpRequest) (method : Method) (bodyBufferOk : Bool)
      (outcomes : Nat → UpstreamOutcome) (userCtx : Option UserContext),
      router.matchRequest req = none →
      (proxyHandler rc hc router st req method bodyBufferOk outcomes
        userCtx).outcome = ProxyOutcome.routeMiss ∧
      (proxyHandler rc hc router st req method bodyBufferOk outcomes
        userCtx).outcome.statusCode = 404) ∧
    (∀ (rc : RetriesCfg) (hc : HealthCfg) (router : Router) (st : LoopState)
      (req : HttpRequest) (method : Method) (bodyBufferOk : Bool)
      (outcomes : Nat → UpstreamOutcome) (userCtx : Option UserContext)
      (route : Route), router.matchRequest req = some route →
      (st.manager.get route.backendGroup).1 = none →
      (proxyHandler rc hc router st req method bodyBufferOk outcomes
        userCtx).outcome = ProxyOutcome.noBackend ∧
      (proxyHandler rc hc router st req method bodyBufferOk outcomes
        userCtx).outcome.statusCode = 503) ∧
    (∀ (maxA : Nat) (hc : HealthCfg) (router : Router) (st : LoopState)
      (req : HttpRequest) (method : Method) (bodyBufferOk : Bool)
      (outcomes : Nat → UpstreamOutcome) (userCtx : Option UserContext)
      (route : Route) (res : GetResult) (m' : BackendManager),
      router.matchRequest req = some route →
      st.manager.get route.backendGroup = (some res, m') →
      outcomes 1 = UpstreamOutcome.transportError →
      (proxyHandler ⟨false, maxA⟩ hc router st req method bodyBufferOk
        outcomes userCtx).outcome = ProxyOutcome.upstreamFailed ∧
      (proxyHandler ⟨false, maxA⟩ hc router st req method bodyBufferOk
        outcomes userCtx).outcome.statusCode = 502) := by
  refine ⟨?_, ?_, ?_, ?_, ?_, ?_, ?_⟩
  · intro parse cache grace now
    rfl
  · intro v parse cache grace now hp
    unfold accessControlMiddleware
    simp only [hp]
    rfl
  · intro v parse cache grace now addr hp hcache
    unfold accessControlMiddleware
    simp only [hp, hcache]
    rfl
  · intro v parse cache grace now addr sub hp hcache hexp
    unfold accessControlMiddleware
    simp only [hp, hcache, hexp]
    rfl
  · intro rc hc router st req method bodyBufferOk outcomes userCtx hroute
    unfold proxyHandler
    simp [hroute, ProxyOutcome.statusCode]
  · intro rc hc router st req method bodyBufferOk outcomes userCtx route
      hroute hnone
    unfold proxyHandler
    simp only [hroute]
    obtain ⟨k, hk⟩ : ∃ k,
        max (computeMaxAttempts rc method
          (rc.enabled && method.isIdempotent && bodyBufferOk)) 1 = k + 1 :=
      ⟨max (computeMaxAttempts rc method
        (rc.enabled && method.isIdempotent && bodyBufferOk)) 1 - 1, by omega⟩
    rw [hk, attemptLoop]
    rcases hget2 : st.manager.get route.backendGroup with ⟨o, m2⟩
    have ho : o = none := by
      rw [hget2] at hnone
      exact hnone
    subst ho
    simp [hget2, ProxyOutcome.statusCode]
  · intro maxA hc router st req method bodyBufferOk outcomes userCtx route
      res m' hroute hget2 houtcome
    unfold proxyHandler
    simp only [hroute]
    have hM : computeMaxAttempts ⟨false, maxA⟩ method
        ((⟨false, maxA⟩ : RetriesCfg).enabled && method.isIdempotent &&
          bodyBufferOk) = 1 := by
      simp [computeMaxAttempts]
    rw [hM]
    obtain ⟨k, hk⟩ : ∃ k, max 1 1 = k + 1 := ⟨0, rfl⟩
    rw [hk, attemptLoop]
    simp [hget2, houtcome, ProxyOutcome.statusCode]

/-- Witness for `error_status_mapping`, one concrete instance per
branch. -/
theorem error_status_mapping_witness :
    (accessControlMiddleware true none (fun _ => none) (fun _ => none) 0 0 =
      AcOutcome.reject 401) ∧
    (accessControlMiddleware true (some "x") (fun _ => none) (fun _ => none)
      0 0 = AcOutcome.reject 400) ∧
    (accessControlMiddleware true (some "x") (fun _ => some 7) (fun _ => none)
      0 0 = AcOutcome.reject 403) ∧
    (accessControlMiddleware true (some "x") (fun _ => some 7)
      (fun _ => some ⟨1, 0⟩) 0 5 = AcOutcome.reject 403) ∧
    ((proxyHandler ⟨true, 3⟩ ⟨2, 3⟩ (Router.fromConfig []) cxState
      { hostHeader := none, path := "/" } Method.GET true cxOutcomes
      none).outcome.statusCode = 404) ∧
    ((proxyHandler ⟨true, 3⟩ ⟨2, 3⟩ cxRouter noGroupState
      { hostHeader := none, path := "/" } Method.GET true cxOutcomes
      none).outcome.statusCode = 503) ∧
    ((proxyHandler ⟨false, 3⟩ ⟨2, 3⟩ cxRouter cxState
      { hostHeader := none, path := "/" } Method.GET true errOutcomes
      none).outcome.statusCode = 502) := by
  refine ⟨?_, ?_, ?_, ?_, ?_, ?_, ?_⟩
  · exact error_status_mapping.1 (fun _ => none) (fun _ => none) 0 0
  · exact error_status_mapping.2.1 "x" (fun _ => none) (fun _ => none) 0 0 rfl
  · exact error_status_mapping.2.2.1 "x" (fun _ => some 7) (fun _ => none)
      0 0 7 rfl rfl
  · exact error_status_mapping.2.2.2.1 "x" (fun _ => some 7)
      (fun _ => some ⟨1, 0⟩) 0 5 7 ⟨1, 0⟩ rfl rfl (by decide)
  · exact (error_status_mapping.2.2.2.2.1 ⟨true, 3⟩ ⟨2, 3⟩
      (Router.fromConfig []) cxState { hostHeader := none, path := "/" }
      Method.GET true cxOutcomes none rfl).2
  · exact (error_status_mapping.2.2.2.2.2.1 ⟨true, 3⟩ ⟨2, 3⟩ cxRouter
      noGroupState { hostHeader := none, path := "/" } Method.GET true
      cxOutcomes none cxCompiledRoute rfl (by decide)).2
  · exact (error_status_mapping.2.2.2.2.2.2 3 ⟨2, 3⟩ cxRouter cxState
      { hostHeader := none, path := "/" } Method.GET true errOutcomes none
      cxCompiledRoute (GetResult.mk 0 cxBackend cxGuard)
      (cxState.manager.get "g").2 rfl (by decide) rfl).2

end Seidar
